import Mathlib

/-!
Verification development for the gospeak narration engine (gospeak.go).

The Go source is shallowly embedded: positions are the resolved
(line, offset) pairs that `fileSet.Position` returns, the syntax tree is
the fragment of `go/ast` exercised by the verified properties, the
mutable `speechBuffer` is threaded as an explicit token list, and the
mutable `functionStack` is threaded as an explicit list argument (the
code pushes before a function body and pops afterwards, so passing the
extended stack to the nested calls is equivalent).  Code that can panic
(the out-of-bounds read in `isInRange`'s stack search, `speakFile` on a
nil tree, the parser returning no tree) is modelled with `Option`, where
`none` is a panic.
-/

namespace GoSpeak

/-- A resolved source position: what `fileSet.Position(p)` yields for a
`token.Pos` (only the line and byte offset are consulted by gospeak). -/
structure Position where
  line : Int
  offset : Int

/-- `*ast.Ident`: a name together with its `NamePos`. -/
structure Ident where
  name : String
  namePos : Position

/-- `Ident.End() = NamePos + len(Name)`; identifiers never span lines. -/
def identEnd (i : Ident) : Position :=
  ⟨i.namePos.line, i.namePos.offset + (i.name.length : Int)⟩

/-- The expression fragment of `go/ast` exercised by the claims:
`Ident`, `BasicLit`, `SelectorExpr`, `CallExpr`, `BadExpr`.  (The
remaining expression kinds of gospeak.go are not needed by any verified
property and are omitted from the model.) -/
inductive Expr where
  | ident (i : Ident)
  | basicLit (value : String) (valuePos : Position)
  | selector (x : Expr) (sel : Ident)
  | call (fn : Expr) (lparen : Position) (args : List Expr)
      (ellipsisPos : Option Position) (rparen : Position)
  | bad (fromPos toPos : Position)

/-- `Node.Pos()` for the modelled expressions, as resolved positions. -/
def exprPos : Expr → Position
  | .ident i => i.namePos
  | .basicLit _ p => p
  | .selector x _ => exprPos x
  | .call fn _ _ _ _ => exprPos fn
  | .bad f _ => f

/-- `Node.End()` for the modelled expressions.  `BasicLit.End` is
`ValuePos + len(Value)`; every literal in this development is on a
single line, so the line component is the literal's own line. -/
def exprEnd : Expr → Position
  | .ident i => identEnd i
  | .basicLit v p => ⟨p.line, p.offset + (v.length : Int)⟩
  | .selector _ sel => identEnd sel
  | .call _ _ _ _ rparen => ⟨rparen.line, rparen.offset + 1⟩
  | .bad _ t => t

mutual
/-- The statement fragment of `go/ast` exercised by the claims:
`ExprStmt`, `BlockStmt`, `AssignStmt`, `SendStmt`, `CommClause`,
`SelectStmt`, `BadStmt`. -/
inductive Stmt where
  | exprStmt (x : Expr)
  | block (b : Block)
  | assign (lhs : List Expr) (tokPos : Position) (rhs : List Expr)
  | send (ch : Expr) (arrow : Position) (value : Expr)
  | commClause (casePos : Position) (comm : Option Stmt) (colon : Position)
      (body : List Stmt)
  | selectStmt (selectPos : Position) (body : Block)
  | bad (fromPos toPos : Position)

/-- `*ast.BlockStmt`: brace positions and the statement list. -/
inductive Block where
  | mk (lbrace : Position) (stmts : List Stmt) (rbrace : Position)
end

/-- `BlockStmt.Pos() = Lbrace`. -/
def blockPosP : Block → Position
  | .mk l _ _ => l

/-- `BlockStmt.End() = Rbrace + 1` (same line: the newline after a brace
still belongs to the brace's line in `go/token`). -/
def blockEndP : Block → Position
  | .mk _ _ r => ⟨r.line, r.offset + 1⟩

/-- `AssignStmt.Pos() = Lhs[0].Pos()`.  (Go panics on an empty `Lhs`;
the parser never produces one, so the `tokPos` default is unreachable.) -/
def assignPos (lhs : List Expr) (tokPos : Position) : Position :=
  match lhs with
  | x :: _ => exprPos x
  | [] => tokPos

/-- `Stmt.Pos()` for the modelled statements. -/
def stmtPos : Stmt → Position
  | .exprStmt x => exprPos x
  | .block b => blockPosP b
  | .assign lhs tokPos _ => assignPos lhs tokPos
  | .send ch _ _ => exprPos ch
  | .commClause casePos _ _ _ => casePos
  | .selectStmt p _ => p
  | .bad f _ => f

/-- `*ast.Field`: names, a type, and an optional tag literal
(`*ast.BasicLit`, kept as its value text and position). -/
structure Field where
  names : List Ident
  type : Expr
  tag : Option (String × Position)

/-- `*ast.FieldList`: opening/closing parentheses and the fields. -/
structure FieldList where
  opening : Position
  list : List Field
  closing : Position

/-- `FieldList.NumFields()`: names are counted, an anonymous field
counts once. -/
def numFields (fl : FieldList) : Nat :=
  fl.list.foldl (fun n g => n + (if g.names.length = 0 then 1 else g.names.length)) 0

/-- `*ast.FuncType`: position of the `func` keyword, parameter and
result field lists (`Results` may be nil). -/
structure FuncType where
  funcPos : Position
  params : Option FieldList
  results : Option FieldList

/-- The declaration fragment exercised by the claims: `FuncDecl` and
`BadDecl`.  (`GenDecl` narration is not needed by any verified
property; an import `GenDecl` is a narration no-op in gospeak.go,
having no `CONST`/`VAR`/`TYPE` case.) -/
inductive Decl where
  | funcDecl (recv : Option FieldList) (name : Ident) (ftype : FuncType) (body : Block)
  | badDecl (fromPos toPos : Position)

/-- `FuncDecl.Pos() = Type.Pos()`; `BadDecl.Pos() = From`. -/
def declPos : Decl → Position
  | .funcDecl _ _ ftype _ => ftype.funcPos
  | .badDecl f _ => f

/-- `*ast.ImportSpec`: optional local alias and the path literal. -/
structure ImportSpec where
  name : Option Ident
  pathValue : String
  pathPos : Position

/-- `ImportSpec.Pos()`: the alias's position when present, else the
path's. -/
def importPos (imp : ImportSpec) : Position :=
  match imp.name with
  | some n => n.namePos
  | none => imp.pathPos

/-- `ImportSpec.End()`: the path literal's end (no explicit `EndPos`). -/
def importEnd (imp : ImportSpec) : Position :=
  ⟨imp.pathPos.line, imp.pathPos.offset + (imp.pathValue.length : Int)⟩

/-- `*ast.File`: package-keyword position, package name, imports and
declarations.  `File.Pos() = Package`. -/
structure File where
  packagePos : Position
  name : String
  imports : List ImportSpec
  decls : List Decl

/-- The scalar configuration fields of the `goSpeaker` struct that the
narration pass reads (`quiet`, `audioOutputFile` and `verboseOutput`
only drive I/O).  They are split out of the mutable state so that the
pass's independence from the speech buffer is syntactic; defaults are
Go's zero values. -/
structure Config where
  skipImports : Bool := false
  targetFunction : String := ""
  startLine : Int := 0
  endLine : Int := 0
  fileBuffer : String := ""

/-- The `goSpeaker` struct: its configuration together with the mutable
`speechBuffer` (a `strings.Builder` receiving one phrase plus one pause
marker per `speak` call, kept as the list of spoken phrases), the
function stack and the loaded tree. -/
structure goSpeaker where
  quiet : Bool := false
  cfg : Config := {}
  speechBuffer : List String := []
  functionStack : List String := []
  file : Option File := none

/-- `MakeGoSpeakerDefault`: the zero speaker with both bounds at `-1`. -/
def makeGoSpeakerDefault : goSpeaker :=
  { cfg := { startLine := -1, endLine := -1 } }

/-- `isRanged`: a target function or a non-negative line window is set. -/
def isRanged (gsp : Config) : Bool :=
  gsp.targetFunction ≠ "" || (gsp.startLine ≥ 0 && gsp.endLine ≥ 0)

/-- The loop body of `isInRange`'s stack search:
`for i := len(stack); i >= 0; i-- { if stack[i] == target { found = true } }`.
An index read outside the stack is Go's index-out-of-range panic,
modelled as `none`.  `i` counts down from `len(stack)` inclusive. -/
def stackSearchAux (stack : List String) (target : String) : Nat → Bool → Option Bool
  | i, found =>
    match stack.get? i with
    | none => none
    | some s =>
      let found' := found || (s == target)
      match i with
      | 0 => some found'
      | i' + 1 => stackSearchAux stack target i' found'

/-- The whole stack search of `isInRange`, starting at `i = len(stack)`. -/
def stackSearch (stack : List String) (target : String) : Option Bool :=
  stackSearchAux stack target stack.length false

/-- `isInRange(n)`: the Range Filter's contains test, taking `n.Pos()`
and `n.End()` resolved.  `none` is the panic of the stack search. -/
def isInRange (gsp : Config) (stack : List String) (startPos endPos : Position) :
    Option Bool :=
  if gsp.startLine < 0 ∨ gsp.endLine < 0 then
    some true
  else if gsp.targetFunction ≠ "" then
    match stackSearch stack gsp.targetFunction with
    | none => none
    | some found =>
      if !found then
        some false
      else
        some (decide ((startPos.line ≥ gsp.startLine ∧ startPos.line ≤ gsp.endLine) ∨
          (endPos.line ≥ gsp.startLine ∧ endPos.line ≤ gsp.endLine)))
  else
    some (decide ((startPos.line ≥ gsp.startLine ∧ startPos.line ≤ gsp.endLine) ∨
      (endPos.line ≥ gsp.startLine ∧ endPos.line ≤ gsp.endLine)))

/-- `isPosInRange(p)`: the position-only query. -/
def isPosInRange (gsp : Config) (p : Position) : Bool :=
  if gsp.startLine < 0 ∨ gsp.endLine < 0 then
    true
  else
    decide (p.line ≥ gsp.startLine ∧ p.line ≤ gsp.endLine)

/-- `isStartInRange(n)`: only the start line matters.  Note: no guard
for negative bounds. -/
def isStartInRange (gsp : Config) (startPos : Position) : Bool :=
  decide (startPos.line ≥ gsp.startLine ∧ startPos.line ≤ gsp.endLine)

/-- `isEndInRange(n)`: only the end line matters.  Note: no guard for
negative bounds. -/
def isEndInRange (gsp : Config) (endPos : Position) : Bool :=
  decide (endPos.line ≥ gsp.startLine ∧ endPos.line ≤ gsp.endLine)

/-- `strings.HasPrefix`, computably over the character lists (all
strings in this development are ASCII, where byte and character
indexing agree). -/
def hasPrefixGo (s pre : String) : Bool :=
  pre.toList.isPrefixOf s.toList

/-- `strings.HasSuffix`, computably over the character lists. -/
def hasSuffixGo (s suf : String) : Bool :=
  suf.toList.reverse.isPrefixOf s.toList.reverse

/-- `strings.ToLower` restricted to the ASCII inputs of this
development. -/
def toLowerGo (s : String) : String :=
  String.mk (s.toList.map Char.toLower)

/-- `strings.Replace(s, old, new, -1)` specialised to the one-character
`old` that gospeak uses (the backslash). -/
def replaceCharGo (old : Char) (new : List Char) : List Char → List Char
  | [] => []
  | c :: rest => (if c = old then new else [c]) ++ replaceCharGo old new rest

/-- `unicode.IsSpace` restricted to the ASCII inputs of this
development. -/
def isSpaceGo (c : Char) : Bool :=
  c = ' ' ∨ c = '\t' ∨ c = '\n' ∨ c = '\r'

/-- `strings.TrimSpace`, computably over the character lists. -/
def trimSpaceGo (cs : List Char) : List Char :=
  ((cs.dropWhile isSpaceGo).reverse.dropWhile isSpaceGo).reverse

/-- `speakableFilename`: ".go" suffixes become " dot go"
(`filename[:len(filename)-3] + " dot go"`). -/
def speakableFilename (filename : String) : String :=
  if hasSuffixGo filename ".go" then
    String.mk (filename.toList.take (filename.toList.length - 3)) ++ " dot go"
  else
    filename

/-- `unicode.IsLetter` restricted to the ASCII inputs of this
development. -/
def isLetterGo (c : Char) : Bool := c.isAlpha

/-- The loop of `splitSymbol`, carrying `currSymbol`. -/
def splitSymbolGo : List Char → List Char → List String
  | [], currSymbol =>
    if currSymbol.length = 0 then [] else [String.mk currSymbol]
  | ch :: rest, currSymbol =>
    if isLetterGo ch then
      splitSymbolGo rest (currSymbol ++ [ch])
    else if currSymbol.length > 0 then
      String.mk currSymbol :: String.mk [ch] :: splitSymbolGo rest []
    else
      String.mk [ch] :: splitSymbolGo rest []

/-- `splitSymbol`: maximal letter runs versus single other characters. -/
def splitSymbol (symbol : String) : List String :=
  splitSymbolGo symbol.toList []

/-- The `symbolTranslations` map (iteration order is irrelevant: only
lookups are performed). -/
def symbolTranslations : List (String × String) :=
  [("os", "oh ess"), ("github", "git hub"), ("fmt", "fumt"),
   ("printf", "print f"), ("sprintf", "s print f"), ("fprintf", "f print f"),
   (".", "dot"), (",", "comma"), ("/", "slash"), ("\\", "backslash"),
   ("utf", "you tee f"), ("ast", "eigh s t"), ("a", "eigh"),
   ("strconv", "stir conv"), ("_", "none")]

/-- `translateSymbols`: case-insensitive lookup, unmatched runs kept. -/
def translateSymbols (symbols : List String) : List String :=
  symbols.map (fun sym =>
    match symbolTranslations.lookup (toLowerGo sym) with
    | some newSym => newSym
    | none => sym)

/-- `symbolToSpeech`: split, translate, join with blanks. -/
def symbolToSpeech (sym : String) : String :=
  String.intercalate " " (translateSymbols (splitSymbol sym))

/-- The phrase emitted by `speakString` (each call to `speakString`
performs exactly one `speak`). -/
def speakString (s : String) : String :=
  if hasPrefixGo s "\"" ∧ hasSuffixGo s "\"" then
    let s1 := (s.toList.drop 1).dropLast
    let s2 := replaceCharGo '\\' " backslash ".toList s1
    if s2.length = 0 then
      "empty string"
    else if (trimSpaceGo s2).length = 0 then
      if s2.length = 1 then
        "string with one blank"
      else
        "string of " ++ toString s2.length ++ " blanks"
    else
      String.mk s2
  else
    s

/-- `getFileString`: raw source text between two positions.  The
disk-backed branch (empty `fileBuffer`, taken only after `LoadFile`)
performs external file I/O and lies outside the model; no theorem below
depends on its value. -/
def getFileString (fileBuffer : String) (fromP toP : Position) : String :=
  let bytesToRead : Int := toP.offset - fromP.offset + 1
  if bytesToRead < 0 then
    ""
  else if bytesToRead = 0 then
    ""
  else if fileBuffer ≠ "" then
    String.mk ((fileBuffer.toList.drop fromP.offset.toNat).take bytesToRead.toNat)
  else
    ""

mutual
/-- `speakExpr` over the modelled expression kinds.  Each `speak` call
becomes one emitted phrase; `none` propagates a panic.  In the
`SelectorExpr` case the source recurses into `speakExpr(v.Sel, isDecl)`,
which lands in the `Ident` case; that case is inlined here.  The
`CallExpr` case is the body of the source's `speakFunctionCall`, inlined
so that the recursion is structural; the free-standing
`speakFunctionCall` below is definitionally the same code
(`speakExpr_call`). -/
def speakExpr (gsp : Config) (stack : List String) : Expr → Bool → Option (List String)
  | .ident i, _ => do
    let b ← isInRange gsp stack i.namePos (identEnd i)
    pure (if b then [symbolToSpeech i.name] else [])
  | .basicLit v p, _ =>
    pure (if isStartInRange gsp p then [speakString v] else [])
  | .selector x sel, isDecl => do
    let tx ← speakExpr gsp stack x isDecl
    let bDot ← isInRange gsp stack sel.namePos (identEnd sel)
    let bSel ← isInRange gsp stack sel.namePos (identEnd sel)
    pure (tx ++ (if bDot then ["dot"] else []) ++
      (if bSel then [symbolToSpeech sel.name] else []))
  | .call fn lparen args ellipsisPos _, _ => do
    let callTok :=
      if args.length = 0 then
        if isStartInRange gsp (exprPos fn) then ["call"] else []
      else []
    let tf ← speakExpr gsp stack fn false
    let ofTok :=
      if args.length > 0 then
        if isPosInRange gsp lparen then ["of"] else []
      else []
    let ta ← speakCallArgs gsp stack ellipsisPos args true false
    pure (callTok ++ tf ++ ofTok ++ ta)
  | .bad f t, _ =>
    pure ((if isStartInRange gsp f then ["Bad expression"] else []) ++
      [symbolToSpeech (getFileString gsp.fileBuffer f t)])

/-- The argument loop of `speakFunctionCall`, carrying the `first` and
`spokeEllipsis` flags.  `c.Ellipsis != token.NoPos` is the `some` case;
`token.Pos` ordering is offset ordering within one file. -/
def speakCallArgs (gsp : Config) (stack : List String)
    (ellipsisPos : Option Position) : List Expr → Bool → Bool → Option (List String)
  | [], _, _ => pure []
  | a :: rest, first, spokeEllipsis => do
    let commaTok :=
      if !first then
        if isStartInRange gsp (exprPos a) then ["comma\t"] else []
      else []
    let ellState :=
      match ellipsisPos with
      | some ep =>
        if ep.offset < (exprPos a).offset ∧ !spokeEllipsis then
          ((if isPosInRange gsp ep then ["ellipsis"] else []), true)
        else ([], spokeEllipsis)
      | none => ([], spokeEllipsis)
    let ta ← speakExpr gsp stack a false
    let tr ← speakCallArgs gsp stack ellipsisPos rest false ellState.2
    pure (commaTok ++ ellState.1 ++ ta ++ tr)
end

/-- `speakFunctionCall`, taking the fields of the `CallExpr`
(`CallExpr.Pos() = Fun.Pos()`); its body is inlined into `speakExpr`'s
`CallExpr` case above, see `speakExpr_call`. -/
def speakFunctionCall (gsp : Config) (stack : List String) (fn : Expr)
    (lparen : Position) (args : List Expr) (ellipsisPos : Option Position)
    (_rparen : Position) : Option (List String) := do
  let callTok :=
    if args.length = 0 then
      if isStartInRange gsp (exprPos fn) then ["call"] else []
    else []
  let tf ← speakExpr gsp stack fn false
  let ofTok :=
    if args.length > 0 then
      if isPosInRange gsp lparen then ["of"] else []
    else []
  let ta ← speakCallArgs gsp stack ellipsisPos args true false
  pure (callTok ++ tf ++ ofTok ++ ta)

/-- The name loop of `speakField`. -/
def speakFieldNames (gsp : Config) (stack : List String) : List Ident → Option (List String)
  | [] => pure []
  | fn :: rest => do
    let b ← isInRange gsp stack fn.namePos (identEnd fn)
    let tr ← speakFieldNames gsp stack rest
    pure ((if b then [symbolToSpeech fn.name] else []) ++ tr)

/-- `speakField`: names, "as"/"all as" plus the type, optional tag. -/
def speakField (gsp : Config) (stack : List String) (field : Field) :
    Option (List String) := do
  let asTok := if field.names.length > 1 then "all as" else "as "
  let tn ← speakFieldNames gsp stack field.names
  let bty ← isInRange gsp stack (exprPos field.type) (exprEnd field.type)
  let tty ←
    if bty then do
      let t ← speakExpr gsp stack field.type true
      pure (asTok :: t)
    else
      pure []
  let ttag ←
    match field.tag with
    | none => pure []
    | some (tv, tp) => do
      let btag ← isInRange gsp stack tp ⟨tp.line, tp.offset + (tv.length : Int)⟩
      let t ← speakExpr gsp stack (Expr.basicLit tv tp) true
      pure ((if btag then ["with tag"] else []) ++ t)
  pure (tn ++ tty ++ ttag)

/-- The field loop of `speakFieldList`. -/
def speakFieldsLoop (gsp : Config) (stack : List String) : List Field → Option (List String)
  | [] => pure []
  | field :: rest => do
    let t ← speakField gsp stack field
    let tr ← speakFieldsLoop gsp stack rest
    pure (t ++ tr)

/-- `speakFieldList`.  A nil field list (`fields == nil`) is `none`; a
nil `parent` is `none`; the parent node is represented by its start
position, the only thing `isStartInRange(parent)` consults.
`FieldList.Pos()` is its opening parenthesis. -/
def speakFieldList (gsp : Config) (stack : List String) (fields : Option FieldList)
    (takeOrRec fieldType : String) (parent : Option Position) : Option (List String) :=
  match fields with
  | none =>
    match parent with
    | some pp =>
      pure (if isStartInRange gsp pp then [takeOrRec ++ " no " ++ fieldType ++ "s"] else [])
    | none => pure []
  | some fl => do
    let header :=
      if numFields fl = 0 then
        if isStartInRange gsp fl.opening then
          [takeOrRec ++ " no " ++ fieldType ++ "s"]
        else []
      else if numFields fl = 1 then
        if isStartInRange gsp fl.opening then
          [takeOrRec ++ toString (numFields fl) ++ " " ++ fieldType]
        else []
      else
        if isStartInRange gsp fl.opening then
          [takeOrRec ++ toString (numFields fl) ++ " " ++ fieldType ++ "s"]
        else []
    let tf ← speakFieldsLoop gsp stack fl.list
    pure (header ++ tf)

/-- The pairwise branch of `speakAssignStatement` (`len(Lhs) > 1` and
equal lengths, iterated by shared index). -/
def speakAssignPairs (gsp : Config) (stack : List String) :
    List Expr → List Expr → Option (List String)
  | l :: ls, r :: rs => do
    let tl ← speakExpr gsp stack l false
    let eqTok := if isEndInRange gsp (exprEnd l) then ["equal"] else []
    let tr ← speakExpr gsp stack r false
    let rest ← speakAssignPairs gsp stack ls rs
    pure (tl ++ eqTok ++ tr ++ rest)
  | _, _ => pure []

/-- The left-hand-side loop of the joined branch, with its `first` flag. -/
def speakAssignLefts (gsp : Config) (stack : List String) :
    List Expr → Bool → Option (List String)
  | [], _ => pure []
  | l :: ls, first => do
    let andTok :=
      if !first then
        if isStartInRange gsp (exprPos l) then ["and"] else []
      else []
    let tl ← speakExpr gsp stack l false
    let rest ← speakAssignLefts gsp stack ls false
    pure (andTok ++ tl ++ rest)

/-- The right-hand-side loop of the joined branch. -/
def speakAssignRights (gsp : Config) (stack : List String) :
    List Expr → Option (List String)
  | [] => pure []
  | r :: rs => do
    let tr ← speakExpr gsp stack r false
    let rest ← speakAssignRights gsp stack rs
    pure (tr ++ rest)

/-- `speakAssignStatement` over the fields of the `AssignStmt`. -/
def speakAssignStatement (gsp : Config) (stack : List String)
    (lhs : List Expr) (tokPos : Position) (rhs : List Expr) : Option (List String) := do
  let letTok := if isStartInRange gsp (assignPos lhs tokPos) then ["let"] else []
  if lhs.length > 1 ∧ lhs.length = rhs.length then do
    let t ← speakAssignPairs gsp stack lhs rhs
    pure (letTok ++ t)
  else do
    let tl ← speakAssignLefts gsp stack lhs true
    let eqTok :=
      match rhs with
      | r :: _ => if isStartInRange gsp (exprPos r) then ["equal"] else []
      | [] => []
    let tr ← speakAssignRights gsp stack rhs
    pure (letTok ++ tl ++ eqTok ++ tr)

mutual
/-- `speakStmt` over the modelled statement kinds.  `speakStmt(nil)`
(reached from a default comm clause) matches no case and emits nothing.
The `CommClause` and `SelectStmt` cases are the bodies of the source's
`speakCommClause` and `speakSelectStatement`, inlined so that the
recursion is structural; the free-standing definitions below are
definitionally the same code (`speakStmt_commClause`,
`speakStmt_selectStmt`). -/
def speakStmt (gsp : Config) (stack : List String) : Stmt → Option (List String)
  | .block (.mk lb stmts rb) => do
    let b1 ← isInRange gsp stack (blockPosP (.mk lb stmts rb)) (blockEndP (.mk lb stmts rb))
    let ts ← speakStmtList gsp stack stmts
    let b2 ← isInRange gsp stack (blockPosP (.mk lb stmts rb)) (blockEndP (.mk lb stmts rb))
    pure ((if b1 then ["begin block"] else []) ++ ts ++
      (if b2 then ["end block"] else []))
  | .exprStmt x => speakExpr gsp stack x false
  | .assign lhs tokPos rhs => speakAssignStatement gsp stack lhs tokPos rhs
  | .send ch _ v => do
    let sendTok := if isStartInRange gsp (exprPos ch) then ["send"] else []
    let tv ← speakExpr gsp stack v false
    let bch ← isInRange gsp stack (exprPos ch) (exprEnd ch)
    let tch ← speakExpr gsp stack ch false
    pure (sendTok ++ tv ++ (if bch then ["to channel"] else []) ++ tch)
  | .commClause casePos (some cstmt) _ body => do
    let head := if isStartInRange gsp casePos then ["default"] else []
    let tcomm ← speakStmt gsp stack cstmt
    let tbody ← speakStmtList gsp stack body
    pure (head ++ tcomm ++ tbody)
  | .commClause casePos none _ body => do
    let head := if isStartInRange gsp casePos then ["case"] else []
    let tbody ← speakStmtList gsp stack body
    pure (head ++ tbody)
  | .selectStmt p b => do
    let head := if isStartInRange gsp p then ["select"] else []
    let t ← speakBlockStmt gsp stack b "" "end select"
    pure (head ++ t)
  | .bad f t =>
    pure ((if isStartInRange gsp f then ["Bad statement"] else []) ++
      [symbolToSpeech (getFileString gsp.fileBuffer f t)])

/-- The statement loop shared by block bodies. -/
def speakStmtList (gsp : Config) (stack : List String) : List Stmt → Option (List String)
  | [] => pure []
  | s :: rest => do
    let t ← speakStmt gsp stack s
    let tr ← speakStmtList gsp stack rest
    pure (t ++ tr)

/-- `speakBlockStmt`: framing phrases around the statement list
(`bodyStart`/`bodyEnd` are spoken even when empty strings). -/
def speakBlockStmt (gsp : Config) (stack : List String) :
    Block → String → String → Option (List String)
  | .mk lb stmts rb, bodyStart, bodyEnd => do
    let st := if isStartInRange gsp (blockPosP (.mk lb stmts rb)) then [bodyStart] else []
    let ts ← speakStmtList gsp stack stmts
    let en := if isEndInRange gsp (blockEndP (.mk lb stmts rb)) then [bodyEnd] else []
    pure (st ++ ts ++ en)
end

/-- `speakCommClause` over the fields of the `CommClause`.  The two
equations unfold the source's `if c.Comm != nil` branch and the fact
that `speakStmt(nil)` matches no case and emits nothing; the body is
inlined into `speakStmt`'s `CommClause` cases, see
`speakStmt_commClause`.  Note the source announces "default" when a
communication statement is present and "case" when it is absent. -/
def speakCommClause (gsp : Config) (stack : List String) (casePos : Position) :
    Option Stmt → List Stmt → Option (List String)
  | some cstmt, body => do
    let head := if isStartInRange gsp casePos then ["default"] else []
    let tcomm ← speakStmt gsp stack cstmt
    let tbody ← speakStmtList gsp stack body
    pure (head ++ tcomm ++ tbody)
  | none, body => do
    let head := if isStartInRange gsp casePos then ["case"] else []
    let tbody ← speakStmtList gsp stack body
    pure (head ++ tbody)

/-- `speakSelectStatement`; the body is inlined into `speakStmt`'s
`SelectStmt` case, see `speakStmt_selectStmt`. -/
def speakSelectStatement (gsp : Config) (stack : List String) (selectPos : Position)
    (b : Block) : Option (List String) := do
  let head := if isStartInRange gsp selectPos then ["select"] else []
  let t ← speakBlockStmt gsp stack b "" "end select"
  pure (head ++ t)

/-- `speakDeclaration`.  The `FuncDecl` case pushes the function name
onto the function stack before narrating and pops afterwards: nested
calls receive the extended stack, siblings the original one. -/
def speakDeclaration (gsp : Config) (stack : List String) : Decl → Option (List String)
  | .funcDecl recv name ftype body => do
    let stackPushed := stack ++ [name.name]
    let header ←
      if isStartInRange gsp ftype.funcPos then do
        let recvT ←
          match recv with
          | some fl =>
            if fl.list.length > 0 then
              speakFieldList gsp stackPushed (some fl) "with" "receiver" none
            else
              pure []
          | none => pure []
        let pT ← speakFieldList gsp stackPushed ftype.params "taking " "parameter"
          (some ftype.funcPos)
        let rT ← speakFieldList gsp stackPushed ftype.results "and returning " "value"
          (some ftype.funcPos)
        pure ((("function " ++ symbolToSpeech name.name) :: recvT) ++ pT ++ rT)
      else
        pure []
    let bT ← speakBlockStmt gsp stackPushed body "function body"
      ("end function " ++ symbolToSpeech name.name)
    pure (header ++ bT)
  | .badDecl f t => do
    let bIn ← isInRange gsp stack f t
    if !bIn then
      pure []
    else
      pure (["Bad declaration", symbolToSpeech (getFileString gsp.fileBuffer f t)])

/-- The declaration loop of `speakFile`. -/
def speakDeclList (gsp : Config) (stack : List String) : List Decl → Option (List String)
  | [] => pure []
  | d :: rest => do
    let t ← speakDeclaration gsp stack d
    let tr ← speakDeclList gsp stack rest
    pure (t ++ tr)

/-- The import loop of `speakImportSpecs`, carrying `spokeImports`:
the "imports" header is emitted lazily before the first
surviving import spec. -/
def speakImportSpecsLoop (gsp : Config) (stack : List String) :
    List ImportSpec → Bool → Option (List String)
  | [], _ => pure []
  | imp :: rest, spokeImports => do
    let b ← isInRange gsp stack (importPos imp) (importEnd imp)
    if !b then
      speakImportSpecsLoop gsp stack rest spokeImports
    else
      let symSpeech :=
        match imp.name with
        | some n => symbolToSpeech imp.pathValue ++ " as " ++ symbolToSpeech n.name
        | none => symbolToSpeech imp.pathValue
      let head := if !spokeImports then ["imports"] else []
      let tr ← speakImportSpecsLoop gsp stack rest true
      pure (head ++ [symSpeech] ++ tr)

/-- `speakImportSpecs`. -/
def speakImportSpecs (gsp : Config) (stack : List String)
    (imports : List ImportSpec) : Option (List String) :=
  if imports.length = 0 then
    pure []
  else
    speakImportSpecsLoop gsp stack imports false

/-- `speakFile`: package phrase, imports, lazy "declarations" header,
then every declaration. -/
def speakFile (gsp : Config) (stack : List String) (file : File) :
    Option (List String) := do
  let pkg :=
    if file.name ≠ "" ∧ isStartInRange gsp file.packagePos then
      ["package " ++ file.name]
    else []
  let impT ←
    if !gsp.skipImports then
      speakImportSpecs gsp stack file.imports
    else
      pure []
  let declHdr :=
    if !isRanged gsp ∧ gsp.startLine < 0 ∧ file.decls.length > 0 then
      ["declarations"]
    else []
  let dT ← speakDeclList gsp stack file.decls
  pure (pkg ++ impT ++ declHdr ++ dT)

/-- `speak`: append one phrase (plus its pause marker) to the buffer. -/
def speak (gsp : goSpeaker) (speech : String) : goSpeaker :=
  { gsp with speechBuffer := gsp.speechBuffer ++ [speech] }

/-- `SpeakAll`: narrate the loaded tree into the buffer.  A nil tree is
a nil-pointer dereference in `speakFile` (`none`); `speakBuffer` only
performs audio output and leaves the modelled state unchanged. -/
def SpeakAll (gsp : goSpeaker) : Option goSpeaker :=
  match gsp.file with
  | none => none
  | some f => do
    let toks ← speakFile gsp.cfg gsp.functionStack f
    pure { gsp with speechBuffer := gsp.speechBuffer ++ toks }

/-- `SpeakFunction`: set the target function, then narrate as
`SpeakAll` does. -/
def SpeakFunction (gsp : goSpeaker) (function : String) : Option goSpeaker :=
  SpeakAll { gsp with cfg := { gsp.cfg with targetFunction := function } }

/-- `SpeakRange`: set the line window, then narrate as `SpeakAll` does
(the source performs no validation of the bounds). -/
def SpeakRange (gsp : goSpeaker) (start finish : Int) : Option goSpeaker :=
  SpeakAll { gsp with cfg := { gsp.cfg with startLine := start, endLine := finish } }

/-- `SetRange`. -/
def SetRange (gsp : goSpeaker) (start finish : Int) : goSpeaker :=
  { gsp with cfg := { gsp.cfg with startLine := start, endLine := finish } }

/-- `SetTargetFunction`. -/
def SetTargetFunction (gsp : goSpeaker) (function : String) : goSpeaker :=
  { gsp with cfg := { gsp.cfg with targetFunction := function } }

/-- `LoadFile`.  The file system (`os.Stat` plus the file's bytes) and
the Syntax Provider are external collaborators, passed as `fs` (content
of an existing file) and `parseGoFile` (the possibly partial tree, or
`none` when the parser yields no tree at all — Go then panics).  When
the file is missing the method speaks the not-found phrase and returns
early, leaving `gsp.file` untouched. -/
def LoadFile (fs : String → Option String) (parseGoFile : String → Option File)
    (filename : String) (gsp : goSpeaker) : Option goSpeaker :=
  match fs filename with
  | none =>
    some (speak gsp ("I can\x27t find the file named " ++ speakableFilename filename))
  | some contents =>
    match parseGoFile contents with
    | none => none
    | some f => some { gsp with file := some f }

/-- `LoadString`: record the buffer, then parse it. -/
def LoadString (parseGoFile : String → Option File) (s : String)
    (gsp : goSpeaker) : Option goSpeaker :=
  match parseGoFile s with
  | none => none
  | some f => some { gsp with cfg := { gsp.cfg with fileBuffer := s }, file := some f }

/-- `SpeakGoFile`: load, then narrate whenever a tree is present. -/
def SpeakGoFile (fs : String → Option String) (parseGoFile : String → Option File)
    (filename : String) (gsp : goSpeaker) : Option goSpeaker := do
  let gsp' ← LoadFile fs parseGoFile filename gsp
  if gsp'.file.isSome then
    SpeakAll gsp'
  else
    pure gsp'

/-- `SpeakGoString`: load from a string, then narrate whenever a tree is
present. -/
def SpeakGoString (parseGoFile : String → Option File) (s : String)
    (gsp : goSpeaker) : Option goSpeaker := do
  let gsp' ← LoadString parseGoFile s gsp
  if gsp'.file.isSome then
    SpeakAll gsp'
  else
    pure gsp'

/-- The tokens emitted by an expression, when the pass does not panic
(with an empty target function it never does, see
`speakExpr_eq_tokens`). -/
def exprTokens (gsp : Config) (stack : List String) (e : Expr) (isDecl : Bool) :
    List String :=
  (speakExpr gsp stack e isDecl).getD []

/-- The source text of the `TestHelloWorld` program (it starts with a
newline, so `package` is on line 2). -/
def helloSource : String :=
  "\npackage main\n\nimport \"fmt\"\n\nfunc main() \x7b\n\tfmt.Printf(\"Hello World!\\n\")\n\x7d"

/-- The call `fmt.Printf("Hello World!\n")` on line 7 of `helloSource`,
with its resolved positions. -/
def helloPrintfCall : Expr :=
  .call (.selector (.ident ⟨"fmt", ⟨7, 44⟩⟩) ⟨"Printf", ⟨7, 48⟩⟩) ⟨7, 54⟩
    [.basicLit "\"Hello World!\\n\"" ⟨7, 55⟩] none ⟨7, 71⟩

/-- `func main() { fmt.Printf("Hello World!\n") }` from `helloSource`. -/
def helloMainDecl : Decl :=
  .funcDecl none ⟨"main", ⟨6, 34⟩⟩ ⟨⟨6, 29⟩, some ⟨⟨6, 38⟩, [], ⟨6, 39⟩⟩, none⟩
    (.mk ⟨6, 41⟩ [.exprStmt helloPrintfCall] ⟨8, 73⟩)

/-- The parsed tree of `helloSource`. -/
def helloFile : File :=
  ⟨⟨2, 1⟩, "main", [⟨none, "\"fmt\"", ⟨4, 22⟩⟩], [helloMainDecl]⟩

/-- What the narration pass actually emits for `helloFile` under the
default (unbounded) window, one list entry per `speak` call. -/
def helloTokens : List String :=
  ["imports", "\" fumt \"", "declarations", "fumt", "dot", "print f", "of"]

/-- The token sequence the specification's Scenario A asserts for the
hello-world program (pause markers ignored), written from the spec's
words for comparison with the engine's output. -/
def specHelloTokens : List String :=
  ["package main", "imports", "fumt", "declarations", "function main",
   "taking no parameters", "and returning no values", "function body",
   "fumt", "dot", "Printf", "of", "Hello World!", "backslash", "n",
   "end function main"]

/-- A file with two parameterless functions, `main` (body: the bare
identifier expression `mainbody`) and `other` (body: `otherbody`). -/
def twoFuncFile : File :=
  ⟨⟨1, 0⟩, "main", [],
   [.funcDecl none ⟨"main", ⟨3, 5⟩⟩ ⟨⟨3, 0⟩, some ⟨⟨3, 9⟩, [], ⟨3, 10⟩⟩, none⟩
      (.mk ⟨3, 12⟩ [.exprStmt (.ident ⟨"mainbody", ⟨4, 1⟩⟩)] ⟨5, 0⟩),
    .funcDecl none ⟨"other", ⟨7, 5⟩⟩ ⟨⟨7, 0⟩, some ⟨⟨7, 10⟩, [], ⟨7, 11⟩⟩, none⟩
      (.mk ⟨7, 13⟩ [.exprStmt (.ident ⟨"otherbody", ⟨8, 1⟩⟩)] ⟨9, 0⟩)]⟩

/-- The default-window configuration (both bounds `-1`, no target). -/
def unboundedCfg : Config :=
  { startLine := -1, endLine := -1 }

/-- A speaker that has already loaded `helloFile` (default window,
empty buffer). -/
def staleSpeaker : goSpeaker :=
  { makeGoSpeakerDefault with file := some helloFile }

/-- An active line window `[1, 10]` with no target function. -/
def windowCfg : Config :=
  { startLine := 1, endLine := 10 }

/-- A target function together with an active line window: the
configuration under which `isInRange` consults the function stack. -/
def targetCfg : Config :=
  { targetFunction := "main", startLine := 1, endLine := 10 }

/-- A comm clause carrying a communication statement (the bare channel
identifier expression `ch` on line 2). -/
def commClauseWithComm : Stmt :=
  .commClause ⟨2, 5⟩ (some (.exprStmt (.ident ⟨"ch", ⟨2, 6⟩⟩))) ⟨2, 9⟩ []

/-- A default clause: no communication statement. -/
def commClauseDefault : Stmt :=
  .commClause ⟨3, 5⟩ none ⟨3, 9⟩ []

/-- A file system on which no file exists (`os.Stat` always reports
not-exist). -/
def fsMissing : String → Option String := fun _ => none

/-- A Syntax Provider that yields no tree. -/
def parseNone : String → Option File := fun _ => none

/-- A Syntax Provider that parses `helloSource` to `helloFile`. -/
def parseHello : String → Option File := fun _ => some helloFile

/-- The left-hand sides `x, y` of a parallel assignment on line 2. -/
def parallelLhs : List Expr := [.ident ⟨"x", ⟨2, 1⟩⟩, .ident ⟨"y", ⟨2, 4⟩⟩]

/-- The right-hand sides `u, v` of a parallel assignment on line 2. -/
def parallelRhs : List Expr := [.ident ⟨"u", ⟨2, 9⟩⟩, .ident ⟨"v", ⟨2, 12⟩⟩]

/-- A node start position on line 2. -/
def rangeP : Position := ⟨2, 0⟩

/-- A node end position on line 12. -/
def rangeQ : Position := ⟨12, 0⟩

/-- A bare position on line 3. -/
def rangePos : Position := ⟨3, 0⟩

/-- The window a `SpeakRange(5, 3)` request installs: an inverted
(empty) interval with both bounds non-negative. -/
def invalidCfg : Config := { startLine := 5, endLine := 3 }

/-- Auxiliary for the proofs: a bind of `Option` values is `some`
whenever both sides are. -/
theorem bindIsSome {α β : Type} {o : Option α} {f : α → Option β}
    (h1 : o.isSome) (h2 : ∀ a : α, (f a).isSome) : (o >>= f).isSome := by
  cases o with
  | none => simp at h1
  | some a => simpa using h2 a

/-- With an empty target function the contains test never reaches the
stack search, hence never panics. -/
theorem isInRange_isSome (gsp : Config) (stack : List String) (p q : Position)
    (h : gsp.targetFunction = "") : (isInRange gsp stack p q).isSome := by
  unfold isInRange
  split
  · rfl
  · rw [if_neg (by simp [h])]
    rfl

mutual
/-- With an empty target function, narrating an expression never
panics. -/
theorem speakExpr_isSome (gsp : Config) (stack : List String)
    (h : gsp.targetFunction = "") :
    (e : Expr) → (d : Bool) → (speakExpr gsp stack e d).isSome
  | .ident i, _ => by
    simp only [speakExpr]
    exact bindIsSome (isInRange_isSome gsp stack _ _ h) (fun b => by simp)
  | .basicLit v p, _ => by simp [speakExpr]
  | .selector x sel, d => by
    simp only [speakExpr]
    refine bindIsSome (speakExpr_isSome gsp stack h x d) (fun tx => ?_)
    refine bindIsSome (isInRange_isSome gsp stack _ _ h) (fun b1 => ?_)
    exact bindIsSome (isInRange_isSome gsp stack _ _ h) (fun b2 => by simp)
  | .call fn lp args ep rp, _ => by
    simp only [speakExpr]
    refine bindIsSome (speakExpr_isSome gsp stack h fn false) (fun tf => ?_)
    refine bindIsSome (speakCallArgs_isSome gsp stack h ep args true false) (fun ta => ?_)
    rfl
  | .bad f t, _ => by simp [speakExpr]
termination_by e _ => (sizeOf e, 1)
decreasing_by all_goals simp_wf <;> omega

/-- With an empty target function, the call-argument loop never
panics. -/
theorem speakCallArgs_isSome (gsp : Config) (stack : List String)
    (h : gsp.targetFunction = "") (ep : Option Position) :
    (args : List Expr) → (first spoke : Bool) →
      (speakCallArgs gsp stack ep args first spoke).isSome
  | [], _, _ => by simp [speakCallArgs]
  | a :: rest, first, spoke => by
    rw [speakCallArgs.eq_def]
    refine bindIsSome (speakExpr_isSome gsp stack h a false) (fun ta => ?_)
    refine bindIsSome (speakCallArgs_isSome gsp stack h ep rest false _) (fun tr => ?_)
    rfl
termination_by args _ _ => (sizeOf args, 0)
decreasing_by all_goals simp_wf <;> omega
end

/-- With an empty target function, `speakExpr` emits exactly its token
list. -/
theorem speakExpr_eq_tokens (gsp : Config) (stack : List String)
    (h : gsp.targetFunction = "") (e : Expr) (d : Bool) :
    speakExpr gsp stack e d = some (exprTokens gsp stack e d) := by
  obtain ⟨ts, hts⟩ := Option.isSome_iff_exists.mp (speakExpr_isSome gsp stack h e d)
  rw [hts]
  simp [exprTokens, hts]

/-- The pairwise branch of the assignment narration, evaluated: one
`Li equal Ri` group per index. -/
theorem speakAssignPairs_eq (gsp : Config) (stack : List String)
    (h : gsp.targetFunction = "") :
    ∀ (ls rs : List Expr), (∀ x ∈ ls, isEndInRange gsp (exprEnd x) = true) →
      speakAssignPairs gsp stack ls rs =
        some ((ls.zip rs).bind fun pr =>
          exprTokens gsp stack pr.1 false ++ "equal" :: exprTokens gsp stack pr.2 false) := by
  intro ls
  induction ls with
  | nil => intro rs hin; cases rs <;> simp [speakAssignPairs]
  | cons l ls ih =>
    intro rs hin
    cases rs with
    | nil => simp [speakAssignPairs]
    | cons r rs =>
      have hl : isEndInRange gsp (exprEnd l) = true := hin l (by simp)
      have htail : ∀ x ∈ ls, isEndInRange gsp (exprEnd x) = true :=
        fun x hx => hin x (by simp [hx])
      simp [speakAssignPairs, speakExpr_eq_tokens gsp stack h, hl, ih rs htail]

/-- The left-hand-side loop with the `first` flag already consumed:
every element is preceded by "and". -/
theorem speakAssignLefts_false_eq (gsp : Config) (stack : List String)
    (h : gsp.targetFunction = "") :
    ∀ (ls : List Expr), (∀ x ∈ ls, isStartInRange gsp (exprPos x) = true) →
      speakAssignLefts gsp stack ls false =
        some (ls.bind fun x => "and" :: exprTokens gsp stack x false) := by
  intro ls
  induction ls with
  | nil => intro _; simp [speakAssignLefts]
  | cons l ls ih =>
    intro hin
    have hl : isStartInRange gsp (exprPos l) = true := hin l (by simp)
    have htail : ∀ x ∈ ls, isStartInRange gsp (exprPos x) = true :=
      fun x hx => hin x (by simp [hx])
    simp [speakAssignLefts, speakExpr_eq_tokens gsp stack h, hl, ih htail]

/-- The left-hand-side loop from the top: the head is bare, the rest
are joined with "and". -/
theorem speakAssignLefts_true_eq (gsp : Config) (stack : List String)
    (h : gsp.targetFunction = "") (l : Expr) (ls : List Expr)
    (hin : ∀ x ∈ ls, isStartInRange gsp (exprPos x) = true) :
    speakAssignLefts gsp stack (l :: ls) true =
      some (exprTokens gsp stack l false ++
        ls.bind fun x => "and" :: exprTokens gsp stack x false) := by
  simp [speakAssignLefts, speakExpr_eq_tokens gsp stack h,
    speakAssignLefts_false_eq gsp stack h ls hin]

/-- The right-hand-side loop, evaluated. -/
theorem speakAssignRights_eq (gsp : Config) (stack : List String)
    (h : gsp.targetFunction = "") :
    ∀ (rs : List Expr),
      speakAssignRights gsp stack rs =
        some (rs.bind fun x => exprTokens gsp stack x false) := by
  intro rs
  induction rs with
  | nil => simp [speakAssignRights]
  | cons r rs ih => simp [speakAssignRights, speakExpr_eq_tokens gsp stack h, ih]

/-- The inlined `CallExpr` case of `speakExpr` is the source's
`speakFunctionCall`. -/
theorem speakExpr_call (gsp : Config) (stack : List String) (fn : Expr)
    (lparen : Position) (args : List Expr) (ellipsisPos : Option Position)
    (rparen : Position) (d : Bool) :
    speakExpr gsp stack (.call fn lparen args ellipsisPos rparen) d =
      speakFunctionCall gsp stack fn lparen args ellipsisPos rparen := by
  simp [speakExpr, speakFunctionCall]

/-- The inlined `CommClause` cases of `speakStmt` are the source's
`speakCommClause`. -/
theorem speakStmt_commClause (gsp : Config) (stack : List String)
    (casePos colon : Position) (comm : Option Stmt) (body : List Stmt) :
    speakStmt gsp stack (.commClause casePos comm colon body) =
      speakCommClause gsp stack casePos comm body := by
  cases comm <;> simp [speakStmt, speakCommClause]

/-- The inlined `SelectStmt` case of `speakStmt` is the source's
`speakSelectStatement`. -/
theorem speakStmt_selectStmt (gsp : Config) (stack : List String)
    (selectPos : Position) (b : Block) :
    speakStmt gsp stack (.selectStmt selectPos b) =
      speakSelectStatement gsp stack selectPos b := by
  simp [speakStmt, speakSelectStatement]

/-- Supporting evidence for the amended InvalidRange behaviour: on the
hello-world tree (which has no malformed nodes), a `SpeakRange(5, 3)`
request — both bounds non-negative, end before start — runs the pass
but appends nothing. -/
theorem speakRange_empty_window_hello :
    (SpeakRange staleSpeaker 5 3).map goSpeaker.speechBuffer = some [] := by decide

/-- Claim C1.  Under the unbounded window (both bounds `-1`, no target
function) the claim asserts all four visibility predicates return true;
in the code only `isInRange` and `isPosInRange` carry the negative-bound
guard, while `isStartInRange` and `isEndInRange` compare against the
empty interval `[-1, -1]` and return false for every node — so the
hello-world test's expected phrases ("package main", "function main",
…) are never emitted. -/
theorem c1_unbounded_predicates :
    isInRange unboundedCfg [] ⟨1, 0⟩ ⟨1, 5⟩ = some true ∧
    isPosInRange unboundedCfg ⟨1, 0⟩ = true ∧
    isStartInRange unboundedCfg ⟨1, 0⟩ = false ∧
    isEndInRange unboundedCfg ⟨1, 5⟩ = false := by decide

/-- Claim C2.  Narrating the hello-world source with no window
restriction does not produce the claimed sequence: the engine emits
only `imports`, `" fumt "`, `declarations`, `fumt`, `dot`, `print f`,
`of` — the package phrase, the function header and the closing phrase
are suppressed by the unguarded start/end predicates, `Printf` is
transliterated to `print f`, and the string literal is skipped. -/
theorem c2_helloworld_narration :
    (SpeakGoString parseHello helloSource makeGoSpeakerDefault).map goSpeaker.speechBuffer
      = some helloTokens ∧
    "package main" ∉ helloTokens ∧ "function main" ∉ helloTokens ∧
    "Printf" ∉ helloTokens ∧ helloTokens ≠ specHelloTokens := by decide

/-- Claim C3.  With a target function set and no line range active,
`isInRange` returns at its negative-bound guard before ever consulting
the function stack, so nothing is suppressed: narrating `twoFuncFile`
with target `main` still emits `otherbody`, a token lexically inside
the other function. -/
theorem c3_function_window :
    (SpeakFunction { makeGoSpeakerDefault with file := some twoFuncFile } "main").map
        goSpeaker.speechBuffer = some ["mainbody", "otherbody"] ∧
    "otherbody" ∈ (["mainbody", "otherbody"] : List String) := by decide

/-- Claim C4.  Under a `LineRange(s, e)` window with `s, e ≥ 0` and no
target function, a node is visible iff its start line or its end line
lies in `[s, e]`, and a position-only query is true iff
`s ≤ line ≤ e`. -/
theorem c4_linerange_visibility (gsp : Config) (stack : List String) (p q pos : Position)
    (htgt : gsp.targetFunction = "") (hs : 0 ≤ gsp.startLine) (he : 0 ≤ gsp.endLine) :
    (isInRange gsp stack p q = some true ↔
      (gsp.startLine ≤ p.line ∧ p.line ≤ gsp.endLine) ∨
      (gsp.startLine ≤ q.line ∧ q.line ≤ gsp.endLine)) ∧
    (isPosInRange gsp pos = true ↔
      gsp.startLine ≤ pos.line ∧ pos.line ≤ gsp.endLine) := by
  have hguard : ¬(gsp.startLine < 0 ∨ gsp.endLine < 0) := by omega
  constructor
  · unfold isInRange
    rw [if_neg hguard, if_neg (by simp [htgt])]
    simp only [Option.some_inj, decide_eq_true_eq]
  · unfold isPosInRange
    rw [if_neg hguard]
    simp only [decide_eq_true_eq]

/-- Witness for C4 at `LineRange(1, 10)` with node lines 2/12 and
position line 3. -/
theorem c4_linerange_visibility_witness :
    (windowCfg.targetFunction = "" ∧ 0 ≤ windowCfg.startLine ∧ 0 ≤ windowCfg.endLine) ∧
    ((isInRange windowCfg [] rangeP rangeQ = some true ↔
      (windowCfg.startLine ≤ rangeP.line ∧ rangeP.line ≤ windowCfg.endLine) ∨
      (windowCfg.startLine ≤ rangeQ.line ∧ rangeQ.line ≤ windowCfg.endLine)) ∧
    (isPosInRange windowCfg rangePos = true ↔
      windowCfg.startLine ≤ rangePos.line ∧ rangePos.line ≤ windowCfg.endLine)) :=
  ⟨⟨rfl, by decide, by decide⟩,
   c4_linerange_visibility windowCfg [] rangeP rangeQ rangePos rfl (by decide) (by decide)⟩

/-- Claim C5, counterexample.  `SpeakRange(0, -1)` has `end < start`,
yet the request is not rejected: the pass runs with the negative end
bound disabling the guards of `isInRange`/`isPosInRange`, and tokens
are appended to the speech buffer. -/
theorem c5_invalid_range_counterexample :
    ((-1 : Int) < 0) ∧
    (SpeakRange staleSpeaker 0 (-1)).map goSpeaker.speechBuffer =
      some ["imports", "\" fumt \"", "fumt", "dot", "print f", "of"] ∧
    (["imports", "\" fumt \"", "fumt", "dot", "print f", "of"] : List String) ≠ [] := by
  decide

/-- Claim C5, amended.  `SpeakRange` performs no validation and the
narration pass still runs over the loaded tree (the parser is not
re-invoked); but when `0 ≤ end < start` — both bounds non-negative, the
interval empty — every Range Filter predicate is false at every node
and position, so every range-guarded emission is suppressed (only the
unguarded malformed-node fallbacks can produce output). -/
theorem c5_invalid_range_amended (gsp : Config) (stack : List String) (p q pos : Position)
    (htgt : gsp.targetFunction = "") (he : 0 ≤ gsp.endLine)
    (hlt : gsp.endLine < gsp.startLine) :
    isInRange gsp stack p q = some false ∧ isPosInRange gsp pos = false ∧
    isStartInRange gsp p = false ∧ isEndInRange gsp q = false := by
  have hguard : ¬(gsp.startLine < 0 ∨ gsp.endLine < 0) := by omega
  refine ⟨?_, ?_, ?_, ?_⟩
  · unfold isInRange
    rw [if_neg hguard, if_neg (by simp [htgt])]
    simp only [Option.some_inj, decide_eq_false_iff_not]
    omega
  · unfold isPosInRange
    rw [if_neg hguard]
    simp only [decide_eq_false_iff_not]
    omega
  · unfold isStartInRange
    simp only [decide_eq_false_iff_not]
    omega
  · unfold isEndInRange
    simp only [decide_eq_false_iff_not]
    omega

/-- Witness for the amended C5 at the window `SpeakRange(5, 3)`
installs. -/
theorem c5_invalid_range_amended_witness :
    (invalidCfg.targetFunction = "" ∧ 0 ≤ invalidCfg.endLine ∧
      invalidCfg.endLine < invalidCfg.startLine) ∧
    (isInRange invalidCfg [] rangeP rangeQ = some false ∧
      isPosInRange invalidCfg rangePos = false ∧
      isStartInRange invalidCfg rangeP = false ∧
      isEndInRange invalidCfg rangeQ = false) :=
  ⟨⟨rfl, by decide, by decide⟩,
   c5_invalid_range_amended invalidCfg [] rangeP rangeQ rangePos rfl (by decide) (by decide)⟩

/-- Claim C6.  `LoadFile` on a missing file speaks the not-found phrase
and returns early, but leaves the previously loaded tree in place, and
`SpeakGoFile`'s `file != nil` check then narrates that stale tree: the
hello-world tokens follow the not-found phrase in the buffer. -/
theorem c6_missing_file :
    (SpeakGoFile fsMissing parseNone "nofile.go" staleSpeaker).map goSpeaker.speechBuffer =
      some ("I can\x27t find the file named nofile dot go" :: helloTokens) ∧
    helloTokens ≠ [] := by decide

/-- Claim C7, counterexample.  The speech buffer is never cleared:
calling `SpeakAll` twice on the same speaker leaves the buffer holding
two copies of the pass's tokens, not the same contents as after the
first call. -/
theorem c7_idempotence_counterexample :
    (SpeakAll staleSpeaker).map goSpeaker.speechBuffer = some helloTokens ∧
    ((SpeakAll staleSpeaker).bind SpeakAll).map goSpeaker.speechBuffer =
      some (helloTokens ++ helloTokens) ∧
    helloTokens ++ helloTokens ≠ helloTokens := by decide

/-- Claim C7, amended.  Each narration pass emits the same token list
(the pass reads only the immutable configuration, stack and tree), but
the buffer is append-only across invocations: a second `SpeakAll`
appends an identical copy instead of reproducing the first buffer. -/
theorem c7_idempotence_amended (gsp : goSpeaker) (f : File) (toks : List String)
    (hf : gsp.file = some f)
    (ht : speakFile gsp.cfg gsp.functionStack f = some toks) :
    (SpeakAll gsp).map goSpeaker.speechBuffer = some (gsp.speechBuffer ++ toks) ∧
    ((SpeakAll gsp).bind SpeakAll).map goSpeaker.speechBuffer =
      some (gsp.speechBuffer ++ toks ++ toks) := by
  have h1 : SpeakAll gsp = some { gsp with speechBuffer := gsp.speechBuffer ++ toks } := by
    simp [SpeakAll, hf, ht]
  have h2 : SpeakAll { gsp with speechBuffer := gsp.speechBuffer ++ toks } =
      some { gsp with speechBuffer := gsp.speechBuffer ++ toks ++ toks } := by
    simp [SpeakAll, hf, ht]
  constructor
  · rw [h1]; rfl
  · rw [h1]
    simp [h2]

/-- Witness for the amended C7 on the loaded hello-world speaker. -/
theorem c7_idempotence_amended_witness :
    (staleSpeaker.file = some helloFile ∧
      speakFile staleSpeaker.cfg staleSpeaker.functionStack helloFile = some helloTokens) ∧
    ((SpeakAll staleSpeaker).map goSpeaker.speechBuffer =
        some (staleSpeaker.speechBuffer ++ helloTokens) ∧
      ((SpeakAll staleSpeaker).bind SpeakAll).map goSpeaker.speechBuffer =
        some (staleSpeaker.speechBuffer ++ helloTokens ++ helloTokens)) :=
  ⟨⟨rfl, by decide⟩,
   c7_idempotence_amended staleSpeaker helloFile helloTokens rfl (by decide)⟩

/-- Claim C8.  For an assignment whose guards are all visible (every
side's start/end line inside the window, no target function): with
equal left/right counts greater than 1 the sides are paired
`L1 equal R1 … Ln equal Rn`; otherwise the left sides are joined with
"and", one "equal" follows (when a right side exists), then all right
sides. -/
theorem c8_assignment_pairing (gsp : Config) (stack : List String)
    (lhs : List Expr) (tokPos : Position) (rhs : List Expr)
    (htgt : gsp.targetFunction = "") (hne : lhs ≠ [])
    (hstart : ∀ x ∈ lhs ++ rhs, isStartInRange gsp (exprPos x) = true)
    (hend : ∀ x ∈ lhs, isEndInRange gsp (exprEnd x) = true) :
    speakAssignStatement gsp stack lhs tokPos rhs =
      some ("let" ::
        (if lhs.length > 1 ∧ lhs.length = rhs.length then
          (lhs.zip rhs).bind fun pr =>
            exprTokens gsp stack pr.1 false ++ "equal" :: exprTokens gsp stack pr.2 false
        else
          (match lhs with
           | l :: ls => exprTokens gsp stack l false ++
               (ls.bind fun x => "and" :: exprTokens gsp stack x false)
           | [] => []) ++
          (match rhs with | _ :: _ => ["equal"] | [] => []) ++
          (rhs.bind fun x => exprTokens gsp stack x false))) := by
  cases lhs with
  | nil => exact absurd rfl hne
  | cons l ls =>
    have hlet : isStartInRange gsp (assignPos (l :: ls) tokPos) = true := by
      simpa [assignPos] using hstart l (by simp)
    have hstartL : ∀ x ∈ ls, isStartInRange gsp (exprPos x) = true :=
      fun x hx => hstart x (by simp [hx])
    by_cases hc : (l :: ls).length > 1 ∧ (l :: ls).length = rhs.length
    · have hp := speakAssignPairs_eq gsp stack htgt (l :: ls) rhs hend
      simp only [speakAssignStatement, if_pos hc, hp, hlet]
      simp
    · have hlefts := speakAssignLefts_true_eq gsp stack htgt l ls hstartL
      have hrights := speakAssignRights_eq gsp stack htgt rhs
      cases rhs with
      | nil =>
        simp only [speakAssignStatement, if_neg hc, hlefts, hrights, hlet]
        simp
      | cons r rs =>
        have hr : isStartInRange gsp (exprPos r) = true := hstart r (by simp)
        simp only [speakAssignStatement, if_neg hc, hlefts, hrights, hlet, hr]
        simp

/-- Witness for C8: the parallel assignment `x, y = u, v` inside the
window `[1, 10]`. -/
theorem c8_assignment_pairing_witness :
    (windowCfg.targetFunction = "" ∧ parallelLhs ≠ [] ∧
      (∀ x ∈ parallelLhs ++ parallelRhs, isStartInRange windowCfg (exprPos x) = true) ∧
      (∀ x ∈ parallelLhs, isEndInRange windowCfg (exprEnd x) = true)) ∧
    speakAssignStatement windowCfg [] parallelLhs ⟨2, 6⟩ parallelRhs =
      some ("let" ::
        (if parallelLhs.length > 1 ∧ parallelLhs.length = parallelRhs.length then
          (parallelLhs.zip parallelRhs).bind fun pr =>
            exprTokens windowCfg [] pr.1 false ++ "equal" :: exprTokens windowCfg [] pr.2 false
        else
          (match parallelLhs with
           | l :: ls => exprTokens windowCfg [] l false ++
               (ls.bind fun x => "and" :: exprTokens windowCfg [] x false)
           | [] => []) ++
          (match parallelRhs with | _ :: _ => ["equal"] | [] => []) ++
          (parallelRhs.bind fun x => exprTokens windowCfg [] x false))) :=
  ⟨⟨rfl, by simp [parallelLhs], by decide, by decide⟩,
   c8_assignment_pairing windowCfg [] parallelLhs ⟨2, 6⟩ parallelRhs rfl
     (by simp [parallelLhs]) (by decide) (by decide)⟩

/-- Claim C9.  `speakCommClause` announces the clauses the wrong way
round: a clause carrying a communication statement is spoken as
"default", and a clause with no communication statement as "case" —
the opposite of the claim (and of the analogous, correctly ordered
`speakSwitchCase`). -/
theorem c9_comm_clause_reversed :
    speakCommClause windowCfg [] ⟨2, 5⟩ (some (.exprStmt (.ident ⟨"ch", ⟨2, 6⟩⟩))) [] =
      some ["default", "ch"] ∧
    speakCommClause windowCfg [] ⟨3, 5⟩ none [] = some ["case"] ∧
    speakStmt windowCfg [] commClauseWithComm = some ["default", "ch"] ∧
    speakStmt windowCfg [] commClauseDefault = some ["case"] := by decide

/-- Claim C10.  The stack search of `isInRange` starts its countdown at
`i = len(functionStack)`, so its very first read is out of bounds: the
search panics (`none`) on every stack whenever the target-function
branch is reached, instead of reading only indices below the stack's
length. -/
theorem c10_stack_search_bounds :
    isInRange targetCfg ["main"] ⟨2, 0⟩ ⟨3, 0⟩ = none ∧
    stackSearch ["main"] "main" = none ∧
    stackSearch [] "main" = none := by decide

end GoSpeak
